import Mathlib

/-!
Verification of the Google Drive batch-ingestion core.

Shallow embedding of the JavaScript sources:
  - the in-memory job queue (JobQueue class: createJob, updateJobProgress,
    updateJobStatus, addJobResult, addLog, getJobProgress, getJobDetails,
    removeJob, cleanupOldJobs);
  - the batch transfer processor (GoogleDriveProcessor: processJob,
    processFilesBatch, processSingleFile);
  - the token manager (TokenManager.getValidAccessToken and its cache);
  - the upload route (POST /api/upload/google-drive).

Modelling conventions: JavaScript objects become structures; `undefined` and
`null` become `Option`; the JS `Map` becomes an association list with
Map.get/Map.set semantics (first matching key, replace in place); wall-clock
reads (`Date.now()`, `new Date()`) become an explicit `now : Nat` parameter
(milliseconds); generated identifiers become explicit parameters; network,
disk and database effects (token exchange, file download, GridFS upload,
Mongo save) become explicit outcome oracles supplied to the functions that
awaited them.  Thrown exceptions become `Option String` or sum results
carrying the thrown message.  All definitions are executable.
-/

/-- A Google Drive file reference as sent by the client
(`{id, name, mimeType, size, url}`). -/
structure FileMeta where
  id : String
  name : String
  mimeType : String
  size : Nat
  url : String
deriving DecidableEq

/-- The five job status strings assigned anywhere in the repository
(`pending`, `processing`, `completed`, `completed_with_errors`, `failed`). -/
inductive JobStatus where
  | pending
  | processing
  | completed
  | completed_with_errors
  | failed
deriving DecidableEq

/-- Rendering of a `JobStatus` back to the source string, used in log and
error messages. -/
def statusToString : JobStatus → String
  | .pending => "pending"
  | .processing => "processing"
  | .completed => "completed"
  | .completed_with_errors => "completed_with_errors"
  | .failed => "failed"

/-- `['completed', 'failed', 'completed_with_errors'].includes(status)`. -/
def JobStatus.isTerminal : JobStatus → Bool
  | .completed => true
  | .failed => true
  | .completed_with_errors => true
  | _ => false

/-- `job.progress` (JobQueue.createJob). -/
structure Progress where
  total : Nat
  completed : Nat
  failed : Nat
  current : Nat
deriving DecidableEq

/-- Entry pushed onto `results.successful` by
GoogleDriveProcessor.processSingleFile. -/
structure StoredRecord where
  fileId : String
  originalName : String
  size : Nat
  gridfsId : String
  googleDriveId : String
deriving DecidableEq

/-- Entry pushed onto `results.failed` by
GoogleDriveProcessor.processSingleFile
(`{fileName, googleDriveId, error}`). -/
structure FailRecord where
  fileName : String
  googleDriveId : String
  error : String
deriving DecidableEq

/-- `job.results`. -/
structure JobResults where
  successful : List StoredRecord
  failed : List FailRecord
deriving DecidableEq

/-- `job.logs` entry (`{timestamp, level, message}`). -/
structure LogEntry where
  timestamp : Nat
  level : String
  message : String
deriving DecidableEq

/-- `job.timestamps`; `created` is always set at creation, the other two
start as `null`. -/
structure JobTimestamps where
  created : Nat
  started : Option Nat
  completed : Option Nat
deriving DecidableEq

/-- `job.metadata` (`{description, category, uploadedBy}`). -/
structure JobMetadata where
  description : Option String
  category : Option String
  uploadedBy : Option String
deriving DecidableEq

/-- The `jobData` object handed to JobQueue.createJob.  The upload route
stores the file list under `googleDriveFiles`; `createJob` itself reads
`jobData.files` when computing `progress.total`, so both fields are kept. -/
structure JobData where
  type : Option String
  files : Option (List FileMeta)
  googleDriveFiles : Option (List FileMeta)
  description : Option String
  category : Option String
  uploadedBy : Option String
deriving DecidableEq

/-- A job object exactly as built by JobQueue.createJob. -/
structure Job where
  id : String
  type : String
  status : JobStatus
  progress : Progress
  data : JobData
  results : JobResults
  metadata : JobMetadata
  timestamps : JobTimestamps
  currentFile : Option String
  error : Option String
  logs : List LogEntry
deriving DecidableEq

/-- The `progressData` object accepted by JobQueue.updateJobProgress; absent
object properties are `none`. -/
structure ProgressData where
  current : Option Nat
  completed : Option Nat
  failed : Option Nat
  fileName : Option String
  status : Option String
  error : Option String
deriving DecidableEq

/-- JobQueue.addLog on a single job: push `{timestamp, level, message}` and
keep only the last 100 entries (`logs.slice(-100)`). -/
def addLogJ (now : Nat) (message : String) (level : String) (j : Job) : Job :=
  let logs := j.logs ++ [{ timestamp := now, level := level, message := message }]
  let logs := if logs.length > 100 then logs.drop (logs.length - 100) else logs
  { j with logs := logs }

/-- JobQueue.createJob: the job object literal, followed by the creation log
line.  `total` is `jobData.files ? jobData.files.length : 0`; the id, which
the source derives from `Date.now()` and `Math.random()`, is an explicit
parameter. -/
def createJobJob (jobId : String) (now : Nat) (jobData : JobData) : Job :=
  let total : Nat :=
    match jobData.files with
    | some l => l.length
    | none => 0
  let job : Job :=
    { id := jobId
      type := (match jobData.type with
               | some s => if s = "" then "google_drive_download" else s
               | none => "google_drive_download")
      status := JobStatus.pending
      progress := { total := total, completed := 0, failed := 0, current := 0 }
      data := jobData
      results := { successful := [], failed := [] }
      metadata := { description := jobData.description, category := jobData.category,
                    uploadedBy := jobData.uploadedBy }
      timestamps := { created := now, started := none, completed := none }
      currentFile := none
      error := none
      logs := [] }
  addLogJ now ("Job created with " ++ toString job.progress.total ++ " files") "info" job

/-- JobQueue.updateJobProgress on a single job: conditional field updates
followed by the status-string log lines. -/
def updateJobProgressJ (now : Nat) (pd : ProgressData) (j : Job) : Job :=
  let j1 := match pd.current with
    | some c => { j with progress := { j.progress with current := c } }
    | none => j
  let j2 := match pd.completed with
    | some c => { j1 with progress := { j1.progress with completed := c } }
    | none => j1
  let j3 := match pd.failed with
    | some c => { j2 with progress := { j2.progress with failed := c } }
    | none => j2
  let j4 := match pd.fileName with
    | some s => if s = "" then j3 else { j3 with currentFile := some s }
    | none => j3
  match pd.status with
  | some s =>
      if s = "downloading" then
        addLogJ now ("Downloading: " ++ pd.fileName.getD "undefined") "info" j4
      else if s = "completed" then
        addLogJ now ("Completed: " ++ pd.fileName.getD "undefined") "info" j4
      else if s = "error" then
        addLogJ now ("Error: " ++ pd.fileName.getD "undefined" ++ " - "
            ++ pd.error.getD "undefined") "info" j4
      else j4
  | none => j4

/-- JobQueue.updateJobStatus on a single job: set `status` unconditionally,
then stamp `started` or `completed` and log, then record a top-level error
when one is supplied (JS truthiness: the empty string is not recorded). -/
def updateJobStatusJ (now : Nat) (st : JobStatus) (err : Option String) (j : Job) : Job :=
  let j1 : Job := { j with status := st }
  let j2 : Job :=
    if st = JobStatus.processing ∧ j1.timestamps.started = none then
      addLogJ now "Job processing started" "info"
        { j1 with timestamps := { j1.timestamps with started := some now } }
    else if st.isTerminal then
      addLogJ now ("Job " ++ statusToString st ++ " in "
          ++ toString ((now - (j1.timestamps.started.getD 0)) / 1000) ++ "s") "info"
        { j1 with timestamps := { j1.timestamps with completed := some now },
                  currentFile := none }
    else j1
  match err with
  | some e => if e = "" then j2 else addLogJ now ("Error: " ++ e) "info" { j2 with error := some e }
  | none => j2

/-- The `(result, isSuccess)` pair passed to JobQueue.addJobResult: the source
passes an untyped object plus a boolean flag whose value always matches the
shape of the object, rendered here as a sum. -/
inductive JobResult where
  | success (r : StoredRecord)
  | failure (r : FailRecord)
deriving DecidableEq

/-- JobQueue.addJobResult on a single job: push the record and bump the
matching counter. -/
def addJobResultJ (result : JobResult) (j : Job) : Job :=
  match result with
  | .success r =>
      { j with results := { j.results with successful := j.results.successful ++ [r] },
               progress := { j.progress with completed := j.progress.completed + 1 } }
  | .failure r =>
      { j with results := { j.results with failed := j.results.failed ++ [r] },
               progress := { j.progress with failed := j.progress.failed + 1 } }

/-- JavaScript `Math.round` on the exact rational value:
round half away from zero upward, i.e. the floor of `q + 1/2`. -/
def jsRound (q : ℚ) : ℤ := ⌊q + 1 / 2⌋

/-- `progress` object of the client projection: the job progress spread plus
the computed `percentage`. -/
structure PVProgress where
  total : Nat
  completed : Nat
  failed : Nat
  current : Nat
  percentage : ℤ
deriving DecidableEq

/-- `summary` object of the client projection; `remaining` is an integer
because the subtraction is not clamped in the source. -/
structure PVSummary where
  total : Nat
  completed : Nat
  failed : Nat
  remaining : ℤ
deriving DecidableEq

/-- The object returned by JobQueue.getJobProgress. -/
structure ProgressView where
  jobId : String
  status : JobStatus
  progress : PVProgress
  currentFile : Option String
  timestamps : JobTimestamps
  error : Option String
  summary : PVSummary
deriving DecidableEq

/-- JobQueue.getJobProgress body for an existing job. -/
def getJobProgressJ (j : Job) : ProgressView :=
  let progressPercentage : ℤ :=
    if j.progress.total > 0 then
      jsRound ((j.progress.completed : ℚ) / (j.progress.total : ℚ) * 100)
    else 0
  { jobId := j.id
    status := j.status
    progress := { total := j.progress.total, completed := j.progress.completed,
                  failed := j.progress.failed, current := j.progress.current,
                  percentage := progressPercentage }
    currentFile := j.currentFile
    timestamps := j.timestamps
    error := j.error
    summary := { total := j.progress.total, completed := j.progress.completed,
                 failed := j.progress.failed,
                 remaining := (j.progress.total : ℤ) - (j.progress.completed : ℤ)
                     - (j.progress.failed : ℤ) } }

/-- The object returned by JobQueue.getJobDetails: the job spread unchanged
plus the augmented percentage inside `progress`. -/
structure JobDetails where
  job : Job
  percentage : ℤ
deriving DecidableEq

/-- JobQueue.getJobDetails body for an existing job. -/
def getJobDetailsJ (j : Job) : JobDetails :=
  { job := j
    percentage :=
      if j.progress.total > 0 then
        jsRound ((j.progress.completed : ℚ) / (j.progress.total : ℚ) * 100)
      else 0 }

/-- Association-list rendering of a JS `Map` read (`map.get(k)`). -/
def assocGet {α : Type} (m : List (String × α)) (k : String) : Option α :=
  match m with
  | [] => none
  | (k', v) :: rest => if k' = k then some v else assocGet rest k

/-- Association-list rendering of a JS `Map` write (`map.set(k, v)`):
replace the existing entry in place or append a new one. -/
def assocSet {α : Type} : List (String × α) → String → α → List (String × α)
  | [], k, v => [(k, v)]
  | (k', v') :: rest, k, v =>
      if k' = k then (k', v) :: rest else (k', v') :: assocSet rest k v

/-- The JobQueue `jobs` map. -/
abbrev JobMap := List (String × Job)

/-- JobQueue.getJob (`this.jobs.get(jobId)`). -/
def getJob (m : JobMap) (jobId : String) : Option Job := assocGet m jobId

/-- Shared shape of every mutating JobQueue method: fetch the job, return
the map unchanged when it is absent (the source returns `false`), otherwise
store the mutated job back. -/
def withJob (m : JobMap) (jobId : String) (f : Job → Job) : JobMap :=
  match getJob m jobId with
  | none => m
  | some j => assocSet m jobId (f j)

/-- JobQueue.createJob at the map level (the boolean/id return value of the
source is the `jobId` parameter itself). -/
def createJob (m : JobMap) (jobId : String) (now : Nat) (jobData : JobData) : JobMap :=
  assocSet m jobId (createJobJob jobId now jobData)

/-- JobQueue.updateJobProgress at the map level. -/
def updateJobProgress (m : JobMap) (jobId : String) (now : Nat) (pd : ProgressData) : JobMap :=
  withJob m jobId (updateJobProgressJ now pd)

/-- JobQueue.updateJobStatus at the map level. -/
def updateJobStatus (m : JobMap) (jobId : String) (now : Nat) (st : JobStatus)
    (err : Option String) : JobMap :=
  withJob m jobId (updateJobStatusJ now st err)

/-- JobQueue.addJobResult at the map level. -/
def addJobResult (m : JobMap) (jobId : String) (result : JobResult) : JobMap :=
  withJob m jobId (addJobResultJ result)

/-- JobQueue.addLog at the map level. -/
def addLog (m : JobMap) (jobId : String) (now : Nat) (message : String)
    (level : String) : JobMap :=
  withJob m jobId (addLogJ now message level)

/-- JobQueue.getJobProgress: `null` for an unknown id becomes `none`. -/
def getJobProgress (m : JobMap) (jobId : String) : Option ProgressView :=
  match getJob m jobId with
  | none => none
  | some j => some (getJobProgressJ j)

/-- JobQueue.getJobDetails: `null` for an unknown id becomes `none`. -/
def getJobDetails (m : JobMap) (jobId : String) : Option JobDetails :=
  match getJob m jobId with
  | none => none
  | some j => some (getJobDetailsJ j)

/-- JobQueue.removeJob (`this.jobs.delete(jobId)`). -/
def removeJob (m : JobMap) (jobId : String) : JobMap :=
  m.filter (fun p => !(p.1 = jobId : Bool))

/-- The cutoff instant of JobQueue.cleanupOldJobs:
`new Date(Date.now() - maxAgeHours * 60 * 60 * 1000)`. -/
def cleanupCutoff (now : Nat) (maxAgeHours : Nat) : ℤ :=
  (now : ℤ) - (maxAgeHours * 60 * 60 * 1000 : Nat)

/-- The removal test of the cleanup loop: completed jobs older than the
cutoff, or never-started jobs created before the cutoff (the `if`/`else if`
chain of the source). -/
def shouldRemove (cutoff : ℤ) (j : Job) : Bool :=
  (match j.timestamps.completed with
   | some t => decide ((t : ℤ) < cutoff)
   | none => false)
  || (decide (j.timestamps.started = none) && decide ((j.timestamps.created : ℤ) < cutoff))

/-- JobQueue.cleanupOldJobs: delete every job matched by `shouldRemove`
(the returned count is dropped). -/
def cleanupOldJobs (now : Nat) (maxAgeHours : Nat) (m : JobMap) : JobMap :=
  m.filter (fun p => ! shouldRemove (cleanupCutoff now maxAgeHours) p.2)

/-- A cache entry of TokenManager (`{accessToken, refreshToken, expiryDate,
cached}`); `expiryDate` is a millisecond epoch instant as delivered by the
identity provider. -/
structure CachedToken where
  accessToken : String
  refreshToken : String
  expiryDate : ℤ
  cached : Nat
deriving DecidableEq

/-- TokenManager `tokenCache` map. -/
abbrev TokenCache := List (String × CachedToken)

/-- TokenManager.generateTokenCacheKey:
`token_` followed by `accessToken.substring(0, 10)`. -/
def generateTokenCacheKey (accessToken : String) : String :=
  "token_" ++ accessToken.take 10

/-- The credentials object produced by a refresh exchange against the
identity provider (`{access_token, expiry_date}`). -/
structure RefreshedCredentials where
  access_token : String
  expiry_date : ℤ
deriving DecidableEq

/-- Outcome oracle for the awaited `oauth2Client.refreshAccessToken()` call:
either the credentials of a successful exchange or the message of the
rejection. -/
inductive RefreshOutcome where
  | ok (credentials : RefreshedCredentials)
  | error (message : String)
deriving DecidableEq

/-- Result of TokenManager.getValidAccessToken: the returned token or the
thrown message, the cache afterwards, and how many refresh exchanges were
performed during the call. -/
inductive TokenOutcome where
  | ok (token : String)
  | thrown (message : String)
deriving DecidableEq

structure TokenResult where
  outcome : TokenOutcome
  cache : TokenCache
  refreshCalls : Nat
deriving DecidableEq

/-- The refresh branch of getValidAccessToken: perform the exchange, cache
the new credentials keyed by the new token, return its access token;
a rejected exchange is rethrown as `Token refresh failed: ...`. -/
def refreshBranch (now : Nat) (refreshOutcome : RefreshOutcome) (cache : TokenCache)
    (refreshToken : String) : TokenResult :=
  match refreshOutcome with
  | .error msg =>
      { outcome := .thrown ("Token refresh failed: " ++ msg), cache := cache, refreshCalls := 1 }
  | .ok cred =>
      { outcome := .ok cred.access_token
        cache := assocSet cache (generateTokenCacheKey cred.access_token)
          { accessToken := cred.access_token, refreshToken := refreshToken,
            expiryDate := cred.expiry_date, cached := now }
        refreshCalls := 1 }

/-- TokenManager.getValidAccessToken: serve from the cache when the entry
for `currentAccessToken` expires more than five minutes after `now`;
otherwise run the refresh exchange. -/
def getValidAccessToken (now : Nat) (refreshOutcome : RefreshOutcome) (cache : TokenCache)
    (refreshToken : String) (currentAccessToken : Option String) : TokenResult :=
  match currentAccessToken with
  | some tok =>
      match assocGet cache (generateTokenCacheKey tok) with
      | some cached =>
          if cached.expiryDate > (now : ℤ) + 5 * 60 * 1000 then
            { outcome := .ok cached.accessToken, cache := cache, refreshCalls := 0 }
          else refreshBranch now refreshOutcome cache refreshToken
      | none => refreshBranch now refreshOutcome cache refreshToken
  | none => refreshBranch now refreshOutcome cache refreshToken

/-- The message substituted by processSingleFile when token acquisition
throws. -/
def authFailedMessage : String := "Authentication failed. Please log in again."

/-- Outcome oracle for the awaited external effects of one file transfer
inside processSingleFile: token acquisition, Google Drive download, GridFS
upload and the database save.  `ok` carries the generated database id and
GridFS id; `tokenFail` is a throw during token acquisition (its message is
replaced by `authFailedMessage` before reaching the catch block);
`stepFail` is a throw from any later step (download, upload or save). -/
inductive FileFate where
  | ok (dbId : String) (gridfsId : String)
  | tokenFail (message : String)
  | stepFail (message : String)
deriving DecidableEq

/-- GoogleDriveProcessor.processSingleFile acting on a single job value:
the `downloading` progress update, then on success the result record plus
the `completed` update, on failure the failed record (token failures with
the substituted message) plus the `error` update. -/
def singleFileEffect (now : Nat) (f : FileMeta) (index : Nat) (fate : FileFate)
    (j : Job) : Job :=
  let j1 := updateJobProgressJ now
    { current := some (index + 1), completed := none, failed := none,
      fileName := some f.name, status := some "downloading", error := none } j
  match fate with
  | .ok dbId gridfsId =>
      let j2 := addJobResultJ (.success
        { fileId := dbId, originalName := f.name, size := f.size,
          gridfsId := gridfsId, googleDriveId := f.id }) j1
      updateJobProgressJ now
        { current := none, completed := none, failed := none,
          fileName := some f.name, status := some "completed", error := none } j2
  | .tokenFail _ =>
      let j2 := addJobResultJ (.failure
        { fileName := f.name, googleDriveId := f.id, error := authFailedMessage }) j1
      updateJobProgressJ now
        { current := none, completed := none, failed := none,
          fileName := some f.name, status := some "error",
          error := some authFailedMessage } j2
  | .stepFail msg =>
      let j2 := addJobResultJ (.failure
        { fileName := f.name, googleDriveId := f.id, error := msg }) j1
      updateJobProgressJ now
        { current := none, completed := none, failed := none,
          fileName := some f.name, status := some "error", error := some msg } j2

/-- GoogleDriveProcessor.processSingleFile at the map level: a missing job
returns immediately, otherwise every mutation goes through the JobQueue
update operations. -/
def processSingleFile (jobId : String) (f : FileMeta) (index : Nat) (fate : FileFate)
    (now : Nat) (m : JobMap) : JobMap :=
  match getJob m jobId with
  | none => m
  | some _ =>
      match fate with
      | .ok dbId gridfsId =>
          let m1 := updateJobProgress m jobId now
            { current := some (index + 1), completed := none, failed := none,
              fileName := some f.name, status := some "downloading", error := none }
          let m2 := addJobResult m1 jobId (.success
            { fileId := dbId, originalName := f.name, size := f.size,
              gridfsId := gridfsId, googleDriveId := f.id })
          updateJobProgress m2 jobId now
            { current := none, completed := none, failed := none,
              fileName := some f.name, status := some "completed", error := none }
      | .tokenFail _ =>
          let m1 := updateJobProgress m jobId now
            { current := some (index + 1), completed := none, failed := none,
              fileName := some f.name, status := some "downloading", error := none }
          let m2 := addJobResult m1 jobId (.failure
            { fileName := f.name, googleDriveId := f.id, error := authFailedMessage })
          updateJobProgress m2 jobId now
            { current := none, completed := none, failed := none,
              fileName := some f.name, status := some "error",
              error := some authFailedMessage }
      | .stepFail msg =>
          let m1 := updateJobProgress m jobId now
            { current := some (index + 1), completed := none, failed := none,
              fileName := some f.name, status := some "downloading", error := none }
          let m2 := addJobResult m1 jobId (.failure
            { fileName := f.name, googleDriveId := f.id, error := msg })
          updateJobProgress m2 jobId now
            { current := none, completed := none, failed := none,
              fileName := some f.name, status := some "error", error := some msg }

/-- The per-file launches of one batch (`batch.map(... processSingleFile
(i + batchIndex) ...)` awaited by `Promise.allSettled`), rendered as the
sequential application of the atomic JobQueue updates; `i` is the global
index of the first file of the batch. -/
def processBatchFiles (jobId : String) (fate : Nat → FileFate) (now : Nat) :
    List FileMeta → Nat → JobMap → JobMap
  | [], _, m => m
  | f :: fs, i, m =>
      processBatchFiles jobId fate now fs (i + 1) (processSingleFile jobId f i (fate i) now m)

/-- Observable scheduling events of processFilesBatch: a batch launch and
the fixed inter-batch delay (`setTimeout(..., 1000)`). -/
inductive BatchEvent where
  | batch (files : List FileMeta)
  | delay
deriving DecidableEq

/-- The loop of GoogleDriveProcessor.processFilesBatch
(`for (let i = 0; i < files.length; i += batchSize)`): slice the next
batch, settle it, and sleep exactly when `i + batchSize < files.length`,
i.e. when files remain after this batch.  The loop advances by `batchSize`
each iteration, so it runs at most `files.length` times when
`batchSize ≥ 1`; `fuel` bounds the recursion by exactly that count and the
wrapper below supplies `files.length` (for `batchSize = 0` the source loop
would never terminate). -/
def processBatchesAux (jobId : String) (batchSize : Nat) (fate : Nat → FileFate)
    (now : Nat) : Nat → List FileMeta → Nat → JobMap → JobMap × List BatchEvent
  | _, [], _, m => (m, [])
  | 0, _ :: _, _, m => (m, [])
  | fuel + 1, f :: fs, i, m =>
      let batch := (f :: fs).take batchSize
      let m1 := processBatchFiles jobId fate now batch i m
      let rest := (f :: fs).drop batchSize
      if rest.isEmpty then (m1, [BatchEvent.batch batch])
      else
        let r := processBatchesAux jobId batchSize fate now fuel rest (i + batchSize) m1
        (r.1, BatchEvent.batch batch :: BatchEvent.delay :: r.2)

/-- GoogleDriveProcessor.processFilesBatch. -/
def processFilesBatch (jobId : String) (googleDriveFiles : List FileMeta)
    (batchSize : Nat) (fate : Nat → FileFate) (now : Nat) (m : JobMap) :
    JobMap × List BatchEvent :=
  processBatchesAux jobId batchSize fate now googleDriveFiles.length googleDriveFiles 0 m

/-- `job.data.googleDriveFiles || job.data.files` (a present empty array is
truthy in JavaScript and is therefore kept). -/
def googleDriveFilesOf (j : Job) : Option (List FileMeta) :=
  match j.data.googleDriveFiles with
  | some l => some l
  | none => j.data.files

/-- GoogleDriveProcessor.processJob: the guards before the `try` block leave
the queue untouched; inside it the job is moved to `processing`, the batches
run, and the final status is chosen from `finalJob.progress.failed`; a throw
inside the `try` moves the job to `failed` with the thrown message.  The
result pairs the queue afterwards with the thrown message, `none` on
success.  The `getJob` after the batches can only be `none` if the job
vanished mid-run, which the preservation lemma below excludes; that arm
mirrors the catch block. -/
def processJob (now : Nat) (fate : Nat → FileFate) (hasSession : Bool)
    (currentJobs : List String) (jobId : String) (m : JobMap) : JobMap × Option String :=
  if jobId ∈ currentJobs then (m, some "Job is already being processed")
  else
    match getJob m jobId with
    | none => (m, some "Job not found")
    | some job =>
      if job.status ≠ JobStatus.pending then
        (m, some ("Job is not pending (status: " ++ statusToString job.status ++ ")"))
      else if !hasSession then (m, some "User session with Google Drive access required")
      else
        let m1 := updateJobStatus m jobId now JobStatus.processing none
        match googleDriveFilesOf job with
        | none =>
            (updateJobStatus m1 jobId now JobStatus.failed
               (some "No Google Drive files found in job data"),
             some "No Google Drive files found in job data")
        | some files =>
          if files.isEmpty then
            (updateJobStatus m1 jobId now JobStatus.failed
               (some "No Google Drive files found in job data"),
             some "No Google Drive files found in job data")
          else
            let m2 := (processFilesBatch jobId files 5 fate now m1).1
            match getJob m2 jobId with
            | none =>
                (updateJobStatus m2 jobId now JobStatus.failed (some "Job not found"),
                 some "Job not found")
            | some finalJob =>
              if finalJob.progress.failed > 0 then
                (updateJobStatus m2 jobId now JobStatus.completed_with_errors none, none)
              else
                (updateJobStatus m2 jobId now JobStatus.completed none, none)

/-- The request session fields read by the upload route
(`req.session.authenticated`, `req.session.googleTokens`,
`req.session.user.email`). -/
structure SessionState where
  authenticated : Bool
  hasGoogleTokens : Bool
  userEmail : String
deriving DecidableEq

/-- The JSON body of `POST /api/upload/google-drive`. -/
structure UploadBody where
  googleDriveFiles : Option (List FileMeta)
  description : Option String
  category : Option String
  uploadedBy : Option String
deriving DecidableEq

/-- The responses the route can produce (401, 400, 202). -/
inductive UploadResponse where
  | unauthorized (message : String)
  | badRequest (message : String)
  | accepted (jobId : String) (totalFiles : Nat)
deriving DecidableEq

/-- The `POST /api/upload/google-drive` handler up to the `202` response:
auth guard, emptiness guard, per-file `id`/`name` guard, then
`jobQueue.createJob` with the file list stored under `googleDriveFiles`.
Background processing is spawned after the response and is modelled by a
separate `processJob` call. -/
def uploadGoogleDriveRoute (newJobId : String) (now : Nat) (session : SessionState)
    (body : UploadBody) (m : JobMap) : UploadResponse × JobMap :=
  if !session.authenticated || !session.hasGoogleTokens then
    (.unauthorized "Authentication required. Please log in to access Google Drive.", m)
  else
    match body.googleDriveFiles with
    | none => (.badRequest "No Google Drive files provided", m)
    | some files =>
      if files.isEmpty then (.badRequest "No Google Drive files provided", m)
      else if files.any (fun f => f.id = "" || f.name = "") then
        (.badRequest "Invalid file metadata: id and name are required", m)
      else
        let jd : JobData :=
          { type := some "google_drive_download"
            files := none
            googleDriveFiles := some files
            description := some (body.description.getD "")
            category := some (body.category.getD "googledrive")
            uploadedBy := some (if session.userEmail ≠ "" then session.userEmail
              else body.uploadedBy.getD "anonymous") }
        (.accepted newJobId files.length, createJob m newJobId now jd)

/-- Spec-side partition of a file list into consecutive slices of `k`
(`ceil(length / k)` of them); fuelled like the processor loop so the two
recursions align. -/
def chunksOfAux (k : Nat) : Nat → List FileMeta → List (List FileMeta)
  | _, [] => []
  | 0, _ :: _ => []
  | fuel + 1, f :: fs => (f :: fs).take k :: chunksOfAux k fuel ((f :: fs).drop k)

/-- Spec-side partition into consecutive batches of size `k`. -/
def chunksOf (k : Nat) (l : List FileMeta) : List (List FileMeta) :=
  chunksOfAux k l.length l

/-- Spec-side schedule: the batches in order with exactly one delay between
consecutive batches and none after the last. -/
def interleaveDelays : List (List FileMeta) → List BatchEvent
  | [] => []
  | [b] => [BatchEvent.batch b]
  | b :: b2 :: bs => BatchEvent.batch b :: BatchEvent.delay :: interleaveDelays (b2 :: bs)

/-- The JobQueue operations the processor invokes on a job between creation
and finalisation, with the exact argument shapes of its call sites: none of
the three `updateJobProgress` call sites passes `completed` or `failed`. -/
inductive ProcOp where
  | progress (now : Nat) (current : Option Nat) (fileName : Option String)
      (status : Option String) (error : Option String)
  | status (now : Nat) (st : JobStatus) (err : Option String)
  | result (r : JobResult)
  | log (now : Nat) (message : String) (level : String)

/-- Apply one processor-invoked operation to a job. -/
def applyProcOp (j : Job) : ProcOp → Job
  | .progress now c fn st e =>
      updateJobProgressJ now
        { current := c, completed := none, failed := none,
          fileName := fn, status := st, error := e } j
  | .status now st e => updateJobStatusJ now st e j
  | .result r => addJobResultJ r j
  | .log now msg lvl => addLogJ now msg lvl j

/-- The counters/results coupling: `progress.completed` and
`progress.failed` mirror the lengths of the two result lists. -/
def countsInv (j : Job) : Prop :=
  j.progress.completed = j.results.successful.length ∧
  j.progress.failed = j.results.failed.length

/-! ### Map lemmas -/

theorem assocGet_assocSet_self {α : Type} (m : List (String × α)) (k : String) (v : α) :
    assocGet (assocSet m k v) k = some v := by
  induction m with
  | nil => simp [assocGet, assocSet]
  | cons p rest ih =>
      obtain ⟨k', v'⟩ := p
      by_cases h : k' = k
      · simp [assocGet, assocSet, h]
      · simp [assocGet, assocSet, h, ih]

theorem assocGet_assocSet_ne {α : Type} (m : List (String × α)) (k k' : String) (v : α)
    (h : k' ≠ k) : assocGet (assocSet m k v) k' = assocGet m k' := by
  have h' : k ≠ k' := Ne.symm h
  induction m with
  | nil => simp [assocGet, assocSet, h']
  | cons p rest ih =>
      obtain ⟨k₀, v₀⟩ := p
      by_cases h₀ : k₀ = k
      · subst h₀
        simp [assocGet, assocSet, h']
      · simp [assocGet, assocSet, h₀, ih]

theorem getJob_withJob (m : JobMap) (jobId : String) (f : Job → Job) :
    getJob (withJob m jobId f) jobId = Option.map f (getJob m jobId) := by
  unfold withJob
  cases h : getJob m jobId with
  | none => simp [h]
  | some j => simp [getJob, assocGet_assocSet_self, h]

theorem getJob_withJob_ne (m : JobMap) (jobId jobId' : String) (f : Job → Job)
    (h : jobId' ≠ jobId) :
    getJob (withJob m jobId f) jobId' = getJob m jobId' := by
  unfold withJob
  cases hg : getJob m jobId with
  | none => rfl
  | some j => simp [getJob, assocGet_assocSet_ne _ _ _ _ h]

/-! ### Field-preservation lemmas for the per-job operations -/

theorem addLogJ_fields (now : Nat) (msg lvl : String) (j : Job) :
    (addLogJ now msg lvl j).status = j.status ∧
    (addLogJ now msg lvl j).progress = j.progress ∧
    (addLogJ now msg lvl j).results = j.results ∧
    (addLogJ now msg lvl j).data = j.data ∧
    (addLogJ now msg lvl j).timestamps = j.timestamps ∧
    (addLogJ now msg lvl j).currentFile = j.currentFile ∧
    (addLogJ now msg lvl j).id = j.id := by
  unfold addLogJ
  refine ⟨?_, ?_, ?_, ?_, ?_, ?_, ?_⟩ <;> rfl

theorem updateJobStatusJ_fields (now : Nat) (st : JobStatus) (err : Option String) (j : Job) :
    (updateJobStatusJ now st err j).status = st ∧
    (updateJobStatusJ now st err j).progress = j.progress ∧
    (updateJobStatusJ now st err j).results = j.results ∧
    (updateJobStatusJ now st err j).data = j.data := by
  unfold updateJobStatusJ addLogJ
  cases err <;> simp <;> split_ifs <;> simp

theorem updateJobProgressJ_counts (now : Nat) (c : Option Nat) (fn st e : Option String)
    (j : Job) :
    (updateJobProgressJ now ⟨c, none, none, fn, st, e⟩ j).progress.completed
        = j.progress.completed ∧
    (updateJobProgressJ now ⟨c, none, none, fn, st, e⟩ j).progress.failed
        = j.progress.failed ∧
    (updateJobProgressJ now ⟨c, none, none, fn, st, e⟩ j).progress.total
        = j.progress.total ∧
    (updateJobProgressJ now ⟨c, none, none, fn, st, e⟩ j).results = j.results ∧
    (updateJobProgressJ now ⟨c, none, none, fn, st, e⟩ j).status = j.status ∧
    (updateJobProgressJ now ⟨c, none, none, fn, st, e⟩ j).data = j.data := by
  unfold updateJobProgressJ addLogJ
  cases c <;> cases fn <;> cases st <;> simp <;> split_ifs <;> simp

theorem addJobResultJ_success (r : StoredRecord) (j : Job) :
    (addJobResultJ (.success r) j).progress.completed = j.progress.completed + 1 ∧
    (addJobResultJ (.success r) j).progress.failed = j.progress.failed ∧
    (addJobResultJ (.success r) j).progress.total = j.progress.total ∧
    (addJobResultJ (.success r) j).results.successful = j.results.successful ++ [r] ∧
    (addJobResultJ (.success r) j).results.failed = j.results.failed ∧
    (addJobResultJ (.success r) j).status = j.status ∧
    (addJobResultJ (.success r) j).data = j.data := by
  unfold addJobResultJ
  refine ⟨?_, ?_, ?_, ?_, ?_, ?_, ?_⟩ <;> rfl

theorem addJobResultJ_failure (r : FailRecord) (j : Job) :
    (addJobResultJ (.failure r) j).progress.failed = j.progress.failed + 1 ∧
    (addJobResultJ (.failure r) j).progress.completed = j.progress.completed ∧
    (addJobResultJ (.failure r) j).progress.total = j.progress.total ∧
    (addJobResultJ (.failure r) j).results.failed = j.results.failed ++ [r] ∧
    (addJobResultJ (.failure r) j).results.successful = j.results.successful ∧
    (addJobResultJ (.failure r) j).status = j.status ∧
    (addJobResultJ (.failure r) j).data = j.data := by
  unfold addJobResultJ
  refine ⟨?_, ?_, ?_, ?_, ?_, ?_, ?_⟩ <;> rfl

/-! ### Processor reduction lemmas -/

theorem getJob_processSingleFile (jobId : String) (f : FileMeta) (index : Nat)
    (fate : FileFate) (now : Nat) (m : JobMap) (j : Job) (h : getJob m jobId = some j) :
    getJob (processSingleFile jobId f index fate now m) jobId
      = some (singleFileEffect now f index fate j) := by
  unfold processSingleFile singleFileEffect
  cases fate <;>
    simp [h, updateJobProgress, addJobResult, getJob_withJob]

theorem getJob_processBatchFiles (jobId : String) (fate : Nat → FileFate) (now : Nat) :
    ∀ (l : List FileMeta) (i : Nat) (m : JobMap) (j : Job), getJob m jobId = some j →
      ∃ j', getJob (processBatchFiles jobId fate now l i m) jobId = some j' := by
  intro l
  induction l with
  | nil => intro i m j h; exact ⟨j, h⟩
  | cons f fs ih =>
      intro i m j h
      exact ih (i + 1) _ _ (getJob_processSingleFile jobId f i (fate i) now m j h)

theorem getJob_processBatchesAux (jobId : String) (k : Nat) (fate : Nat → FileFate)
    (now : Nat) :
    ∀ (fuel : Nat) (files : List FileMeta) (i : Nat) (m : JobMap) (j : Job),
      getJob m jobId = some j →
      ∃ j', getJob (processBatchesAux jobId k fate now fuel files i m).1 jobId = some j' := by
  intro fuel
  induction fuel with
  | zero =>
      intro files i m j h
      cases files with
      | nil => exact ⟨j, h⟩
      | cons f fs => exact ⟨j, h⟩
  | succ fuel ih =>
      intro files i m j h
      cases files with
      | nil => exact ⟨j, h⟩
      | cons f fs =>
          obtain ⟨j1, h1⟩ := getJob_processBatchFiles jobId fate now
            ((f :: fs).take k) i m j h
          by_cases hrest : ((f :: fs).drop k).isEmpty
          · simpa [processBatchesAux, hrest] using ⟨j1, h1⟩
          · obtain ⟨j2, h2⟩ := ih ((f :: fs).drop k) (i + k) _ j1 h1
            simpa [processBatchesAux, hrest] using ⟨j2, h2⟩

/-! ### Batching lemmas -/

theorem interleaveDelays_cons_of_ne_nil (b : List FileMeta) (bs : List (List FileMeta))
    (h : bs ≠ []) :
    interleaveDelays (b :: bs)
      = BatchEvent.batch b :: BatchEvent.delay :: interleaveDelays bs := by
  cases bs with
  | nil => exact absurd rfl h
  | cons b2 bs2 => rfl

theorem processBatchesAux_trace (jobId : String) (k : Nat) (fate : Nat → FileFate)
    (now : Nat) :
    ∀ (fuel : Nat) (files : List FileMeta) (i : Nat) (m : JobMap),
      files.length ≤ fuel →
      (processBatchesAux jobId (k + 1) fate now fuel files i m).2
        = interleaveDelays (chunksOfAux (k + 1) fuel files) := by
  intro fuel
  induction fuel with
  | zero =>
      intro files i m hle
      have hn : files = [] := List.length_eq_zero.mp (Nat.le_zero.mp hle)
      subst hn
      simp [processBatchesAux, chunksOfAux, interleaveDelays]
  | succ fuel ih =>
      intro files i m hle
      cases files with
      | nil => simp [processBatchesAux, chunksOfAux, interleaveDelays]
      | cons f fs =>
          cases hd : (f :: fs).drop (k + 1) with
          | nil =>
              simp [processBatchesAux, chunksOfAux, hd, interleaveDelays]
          | cons r rs =>
              have hrest : ((f :: fs).drop (k + 1)).isEmpty = false := by simp [hd]
              have hlen : (r :: rs).length ≤ fuel := by
                have hdl := congrArg List.length hd
                simp only [List.length_drop, List.length_cons] at hdl hle ⊢
                omega
              have ihr := ih (r :: rs) (i + (k + 1))
                (processBatchFiles jobId fate now ((f :: fs).take (k + 1)) i m) hlen
              simp only [List.take_succ_cons] at ihr
              have hne : chunksOfAux (k + 1) fuel (r :: rs) ≠ [] := by
                cases fuel with
                | zero => simp at hlen
                | succ g => simp [chunksOfAux]
              simp [processBatchesAux, hd, hrest, ihr, chunksOfAux,
                interleaveDelays_cons_of_ne_nil _ _ hne]

theorem chunksOfAux_length (k : Nat) :
    ∀ (fuel : Nat) (l : List FileMeta), l.length ≤ fuel →
      (chunksOfAux (k + 1) fuel l).length = (l.length + k) / (k + 1) := by
  intro fuel
  induction fuel with
  | zero =>
      intro l hle
      have hn : l = [] := List.length_eq_zero.mp (Nat.le_zero.mp hle)
      subst hn
      simp [chunksOfAux, Nat.div_eq_of_lt (Nat.lt_succ_self k)]
  | succ fuel ih =>
      intro l hle
      cases l with
      | nil => simp [chunksOfAux, Nat.div_eq_of_lt (Nat.lt_succ_self k)]
      | cons f fs =>
          have hlen : ((f :: fs).drop (k + 1)).length ≤ fuel := by
            simp only [List.length_drop, List.length_cons]
            simp only [List.length_cons] at hle
            omega
          have hrec := ih _ hlen
          simp only [chunksOfAux, List.length_cons, hrec, List.length_drop]
          have hba : (k + 1) ≤ (fs.length + 1) + k := by omega
          rw [Nat.div_eq_sub_div (Nat.succ_pos k) hba]
          simp only [Nat.succ_eq_add_one]
          by_cases hc : k + 1 ≤ fs.length + 1
          · have hnum : fs.length + 1 - (k + 1) + k = fs.length + 1 + k - (k + 1) := by
              omega
            rw [hnum]
          · have h0 : (fs.length + 1 - (k + 1) + k) / (k + 1) = 0 :=
              Nat.div_eq_of_lt (by omega)
            have h1 : (fs.length + 1 + k - (k + 1)) / (k + 1) = 0 :=
              Nat.div_eq_of_lt (by omega)
            rw [h0, h1]

theorem chunksOfAux_flatten (k : Nat) :
    ∀ (fuel : Nat) (l : List FileMeta), l.length ≤ fuel →
      (chunksOfAux (k + 1) fuel l).flatten = l := by
  intro fuel
  induction fuel with
  | zero =>
      intro l hle
      have hn : l = [] := List.length_eq_zero.mp (Nat.le_zero.mp hle)
      subst hn
      simp [chunksOfAux]
  | succ fuel ih =>
      intro l hle
      cases l with
      | nil => simp [chunksOfAux]
      | cons f fs =>
          have hlen : ((f :: fs).drop (k + 1)).length ≤ fuel := by
            simp only [List.length_drop, List.length_cons]
            simp only [List.length_cons] at hle
            omega
          have hrec := ih _ hlen
          simp only [List.drop_succ_cons] at hrec
          simp [chunksOfAux, hrec, List.take_append_drop]

theorem interleaveDelays_count :
    ∀ bs : List (List FileMeta),
      (interleaveDelays bs).count BatchEvent.delay = bs.length - 1 := by
  intro bs
  induction bs with
  | nil => simp [interleaveDelays]
  | cons b bs ih =>
      cases bs with
      | nil => simp [interleaveDelays]
      | cons b2 bs2 =>
          simp only [interleaveDelays, List.count_cons, List.length_cons] at ih ⊢
          simp at ih ⊢
          omega

/-! ### Derived projection lemmas -/

theorem updateJobProgressJ_results (now : Nat) (c : Option Nat) (fn st e : Option String)
    (j : Job) :
    (updateJobProgressJ now ⟨c, none, none, fn, st, e⟩ j).results = j.results :=
  (updateJobProgressJ_counts now c fn st e j).2.2.2.1

theorem updateJobStatusJ_status (now : Nat) (st : JobStatus) (err : Option String)
    (j : Job) : (updateJobStatusJ now st err j).status = st :=
  (updateJobStatusJ_fields now st err j).1

theorem updateJobStatusJ_progress (now : Nat) (st : JobStatus) (err : Option String)
    (j : Job) : (updateJobStatusJ now st err j).progress = j.progress :=
  (updateJobStatusJ_fields now st err j).2.1

theorem assocGet_filter_eq_none {α : Type} (m : List (String × α)) (k : String)
    (keep : String × α → Bool) (h : ∀ p ∈ m, p.1 = k → keep p = false) :
    assocGet (m.filter keep) k = none := by
  induction m with
  | nil => rfl
  | cons p rest ih =>
      obtain ⟨k₀, v₀⟩ := p
      have hrest : ∀ q ∈ rest, q.1 = k → keep q = false := by
        intro q hq hqk
        exact h q (List.mem_cons_of_mem _ hq) hqk
      by_cases hk : keep (k₀, v₀) = true
      · have hne : k₀ ≠ k := by
          intro he
          have hf := h (k₀, v₀) (List.mem_cons_self _ _) he
          rw [hk] at hf
          simp at hf
        simp [List.filter_cons, hk, assocGet, hne, ih hrest]
      · simp only [Bool.not_eq_true] at hk
        simp [List.filter_cons, hk, ih hrest]

/-- C2.  `TokenManager.getValidAccessToken`: with a `currentAccessToken`
whose cache entry expires more than five minutes after `now`, the cached
token is returned, the cache is untouched and no refresh exchange runs;
with a stale entry, a missing entry, or no current token, exactly one
refresh exchange runs and (on success) its access token is returned and
stored in the cache under its derived key; a rejected exchange also runs
exactly once and rethrows `Token refresh failed: ...`. -/
theorem c2_token_cache_refresh (now : Nat) (ro : RefreshOutcome) (cache : TokenCache)
    (refreshToken tok : String) :
    (∀ cached, assocGet cache (generateTokenCacheKey tok) = some cached →
       (now : ℤ) + 5 * 60 * 1000 < cached.expiryDate →
       getValidAccessToken now ro cache refreshToken (some tok)
         = { outcome := .ok cached.accessToken, cache := cache, refreshCalls := 0 })
    ∧ (∀ cred, ro = RefreshOutcome.ok cred →
        assocGet cache (generateTokenCacheKey tok) = none →
        getValidAccessToken now ro cache refreshToken (some tok)
          = { outcome := .ok cred.access_token
              cache := assocSet cache (generateTokenCacheKey cred.access_token)
                { accessToken := cred.access_token, refreshToken := refreshToken,
                  expiryDate := cred.expiry_date, cached := now }
              refreshCalls := 1 })
    ∧ (∀ cred cached, ro = RefreshOutcome.ok cred →
        assocGet cache (generateTokenCacheKey tok) = some cached →
        cached.expiryDate ≤ (now : ℤ) + 5 * 60 * 1000 →
        getValidAccessToken now ro cache refreshToken (some tok)
          = { outcome := .ok cred.access_token
              cache := assocSet cache (generateTokenCacheKey cred.access_token)
                { accessToken := cred.access_token, refreshToken := refreshToken,
                  expiryDate := cred.expiry_date, cached := now }
              refreshCalls := 1 })
    ∧ (∀ cred, ro = RefreshOutcome.ok cred →
        getValidAccessToken now ro cache refreshToken none
          = { outcome := .ok cred.access_token
              cache := assocSet cache (generateTokenCacheKey cred.access_token)
                { accessToken := cred.access_token, refreshToken := refreshToken,
                  expiryDate := cred.expiry_date, cached := now }
              refreshCalls := 1 })
    ∧ (∀ msg, ro = RefreshOutcome.error msg →
        assocGet cache (generateTokenCacheKey tok) = none →
        getValidAccessToken now ro cache refreshToken (some tok)
          = { outcome := .thrown ("Token refresh failed: " ++ msg)
              cache := cache, refreshCalls := 1 }) := by
  refine ⟨?_, ?_, ?_, ?_, ?_⟩
  · intro cached hget hfresh
    simp only [getValidAccessToken, hget]
    rw [if_pos hfresh]
  · intro cred hro hget
    subst hro
    simp only [getValidAccessToken, hget, refreshBranch]
  · intro cred cached hro hget hstale
    subst hro
    have hnot : ¬ ((now : ℤ) + 5 * 60 * 1000 < cached.expiryDate) := not_lt.mpr hstale
    simp only [getValidAccessToken, hget]
    rw [if_neg hnot]
    simp only [refreshBranch]
  · intro cred hro
    subst hro
    simp only [getValidAccessToken, refreshBranch]
  · intro msg hro hget
    subst hro
    simp only [getValidAccessToken, hget, refreshBranch]

def c2Cred : RefreshedCredentials := ⟨"newTok", 99⟩

def c2Cached : CachedToken := ⟨"cachedTok", "r0", 1000000, 0⟩

def c2CachedStale : CachedToken := ⟨"cachedTok", "r0", 100, 0⟩

def c2Cache : TokenCache := [(generateTokenCacheKey "accessTokenValue", c2Cached)]

def c2CacheStale : TokenCache := [(generateTokenCacheKey "accessTokenValue", c2CachedStale)]

theorem c2_token_cache_refresh_witness :
    getValidAccessToken 0 (RefreshOutcome.ok c2Cred) c2Cache "r1" (some "accessTokenValue")
      = { outcome := .ok "cachedTok", cache := c2Cache, refreshCalls := 0 }
    ∧ getValidAccessToken 0 (RefreshOutcome.ok c2Cred) c2CacheStale "r1"
        (some "accessTokenValue")
      = { outcome := .ok "newTok"
          cache := assocSet c2CacheStale (generateTokenCacheKey "newTok")
            { accessToken := "newTok", refreshToken := "r1", expiryDate := 99, cached := 0 }
          refreshCalls := 1 }
    ∧ getValidAccessToken 0 (RefreshOutcome.ok c2Cred) [] "r1" (some "accessTokenValue")
      = { outcome := .ok "newTok"
          cache := assocSet [] (generateTokenCacheKey "newTok")
            { accessToken := "newTok", refreshToken := "r1", expiryDate := 99, cached := 0 }
          refreshCalls := 1 }
    ∧ getValidAccessToken 0 (RefreshOutcome.error "invalid_grant") [] "r1"
        (some "accessTokenValue")
      = { outcome := .thrown ("Token refresh failed: " ++ "invalid_grant")
          cache := [], refreshCalls := 1 } :=
  ⟨(c2_token_cache_refresh 0 (RefreshOutcome.ok c2Cred) c2Cache "r1" "accessTokenValue").1
      c2Cached (by decide) (by decide),
   (c2_token_cache_refresh 0 (RefreshOutcome.ok c2Cred) c2CacheStale "r1"
      "accessTokenValue").2.2.1 c2Cred c2CachedStale rfl (by decide) (by decide),
   (c2_token_cache_refresh 0 (RefreshOutcome.ok c2Cred) [] "r1" "accessTokenValue").2.1
      c2Cred rfl (by decide),
   (c2_token_cache_refresh 0 (RefreshOutcome.error "invalid_grant") [] "r1"
      "accessTokenValue").2.2.2.2 "invalid_grant" rfl (by decide)⟩

def c10Data : JobData :=
  { type := some "google_drive_download", files := none,
    googleDriveFiles := some [⟨"g1", "a.txt", "text/plain", 1, "u"⟩],
    description := some "", category := some "googledrive", uploadedBy := some "u@x" }

def c10Job : Job := createJobJob "j10" 0 c10Data

def c10Map : JobMap := [("j10", c10Job)]

/-- C10.  Both client projections guard the percentage computation with a
`total > 0` test: a job whose `progress.total` is zero reports percentage 0
from `getJobProgress` and from `getJobDetails` instead of dividing by
zero. -/
theorem c10_zero_total_percentage (m : JobMap) (jobId : String) (j : Job)
    (h : getJob m jobId = some j) (h0 : j.progress.total = 0) :
    (getJobProgress m jobId).map (fun v => v.progress.percentage) = some 0
    ∧ (getJobDetails m jobId).map (fun d => d.percentage) = some 0 := by
  constructor
  · simp [getJobProgress, h, getJobProgressJ, h0]
  · simp [getJobDetails, h, getJobDetailsJ, h0]

theorem c10_zero_total_percentage_witness :
    (getJobProgress c10Map "j10").map (fun v => v.progress.percentage) = some 0
    ∧ (getJobDetails c10Map "j10").map (fun d => d.percentage) = some 0 :=
  c10_zero_total_percentage c10Map "j10" c10Job (by decide) (by decide)

/-- C5.  `JobQueue.getJobProgress` on an existing job (with at least one
file, so the percentage is defined) is the read-only projection whose
percentage is `Math.round(100 * completed / total)` and whose
`summary.remaining` is `total - completed - failed`; an unknown id yields
`null`, and so does any id whose entries the cleanup sweep has removed
(garbage-collected jobs). -/
theorem c5_progress_snapshot (m : JobMap) (jobId : String) :
    (∀ j, getJob m jobId = some j → 0 < j.progress.total →
      getJobProgress m jobId = some
        { jobId := j.id
          status := j.status
          progress := { total := j.progress.total, completed := j.progress.completed,
                        failed := j.progress.failed, current := j.progress.current,
                        percentage := jsRound (100 * (j.progress.completed : ℚ)
                            / (j.progress.total : ℚ)) }
          currentFile := j.currentFile
          timestamps := j.timestamps
          error := j.error
          summary := { total := j.progress.total, completed := j.progress.completed,
                       failed := j.progress.failed,
                       remaining := (j.progress.total : ℤ) - (j.progress.completed : ℤ)
                           - (j.progress.failed : ℤ) } })
    ∧ (getJob m jobId = none → getJobProgress m jobId = none)
    ∧ (∀ now maxAgeHours,
        (∀ p ∈ m, p.1 = jobId →
            shouldRemove (cleanupCutoff now maxAgeHours) p.2 = true) →
        getJobProgress (cleanupOldJobs now maxAgeHours m) jobId = none) := by
  refine ⟨?_, ?_, ?_⟩
  · intro j h h0
    simp only [getJobProgress, h, getJobProgressJ, if_pos h0]
    congr 2
    rw [mul_comm, mul_div_assoc]
  · intro h
    simp [getJobProgress, h]
  · intro now maxAgeHours h
    have hn : getJob (cleanupOldJobs now maxAgeHours m) jobId = none := by
      unfold cleanupOldJobs getJob
      apply assocGet_filter_eq_none
      intro p hp hpk
      simp [h p hp hpk]
    simp [getJobProgress, hn]

def c5Data : JobData :=
  { type := some "google_drive_download",
    files := some [⟨"g5", "b.txt", "text/plain", 2, "u"⟩], googleDriveFiles := none,
    description := some "", category := some "googledrive", uploadedBy := some "u@x" }

def c5Job : Job := createJobJob "j5" 0 c5Data

def c5Map : JobMap := [("j5", c5Job)]

def c5OldJob : Job := updateJobStatusJ 1000 JobStatus.completed none (createJobJob "j5old" 0 c5Data)

def c5OldMap : JobMap := [("j5old", c5OldJob)]

theorem c5_progress_snapshot_witness :
    getJobProgress c5Map "j5" = some
      { jobId := c5Job.id
        status := c5Job.status
        progress := { total := c5Job.progress.total, completed := c5Job.progress.completed,
                      failed := c5Job.progress.failed, current := c5Job.progress.current,
                      percentage := jsRound (100 * (c5Job.progress.completed : ℚ)
                          / (c5Job.progress.total : ℚ)) }
        currentFile := c5Job.currentFile
        timestamps := c5Job.timestamps
        error := c5Job.error
        summary := { total := c5Job.progress.total, completed := c5Job.progress.completed,
                     failed := c5Job.progress.failed,
                     remaining := (c5Job.progress.total : ℤ) - (c5Job.progress.completed : ℤ)
                         - (c5Job.progress.failed : ℤ) } }
    ∧ getJobProgress c5Map "missing" = none
    ∧ getJobProgress (cleanupOldJobs 100000000 1 c5OldMap) "j5old" = none :=
  ⟨(c5_progress_snapshot c5Map "j5").1 c5Job (by decide) (by decide),
   (c5_progress_snapshot c5Map "missing").2.1 (by decide),
   (c5_progress_snapshot c5OldMap "j5old").2.2 100000000 1 (by decide)⟩

theorem countsInv_applyProcOp (j : Job) (op : ProcOp) (h : countsInv j) :
    countsInv (applyProcOp j op) := by
  obtain ⟨h1, h2⟩ := h
  cases op with
  | progress now c fn st e =>
      have hp := updateJobProgressJ_counts now c fn st e j
      exact ⟨by simp only [applyProcOp, hp.1, hp.2.2.2.1, h1],
             by simp only [applyProcOp, hp.2.1, hp.2.2.2.1, h2]⟩
  | status now st e =>
      have hs := updateJobStatusJ_fields now st e j
      exact ⟨by simp only [applyProcOp, hs.2.1, hs.2.2.1, h1],
             by simp only [applyProcOp, hs.2.1, hs.2.2.1, h2]⟩
  | result r =>
      cases r with
      | success rec =>
          have ha := addJobResultJ_success rec j
          refine ⟨?_, ?_⟩
          · simp only [applyProcOp, ha.1, ha.2.2.2.1, List.length_append,
              List.length_singleton, h1]
          · simp only [applyProcOp, ha.2.1, ha.2.2.2.2.1, h2]
      | failure rec =>
          have ha := addJobResultJ_failure rec j
          refine ⟨?_, ?_⟩
          · simp only [applyProcOp, ha.2.1, ha.2.2.2.2.1, h1]
          · simp only [applyProcOp, ha.1, ha.2.2.2.1, List.length_append,
              List.length_singleton, h2]
  | log now msg lvl =>
      have hl := addLogJ_fields now msg lvl j
      exact ⟨by simp only [applyProcOp, hl.2.1, hl.2.2.1, h1],
             by simp only [applyProcOp, hl.2.1, hl.2.2.1, h2]⟩

/-- C9.  On a freshly created job, after any sequence of the operations the
processor invokes (`updateJobProgress` without counter fields,
`updateJobStatus`, `addJobResult`, `addLog`), `progress.completed` equals
the length of `results.successful` and `progress.failed` the length of
`results.failed`; `addJobResult` is the unique counter-changing operation
and it bumps exactly one counter while appending exactly one entry to the
matching list. -/
theorem c9_counts_match_results (jobId : String) (now : Nat) (jd : JobData)
    (ops : List ProcOp) :
    countsInv (List.foldl applyProcOp (createJobJob jobId now jd) ops)
    ∧ (∀ (r : StoredRecord) (j : Job),
        (addJobResultJ (.success r) j).progress.completed = j.progress.completed + 1
        ∧ (addJobResultJ (.success r) j).results.successful = j.results.successful ++ [r]
        ∧ (addJobResultJ (.success r) j).progress.failed = j.progress.failed
        ∧ (addJobResultJ (.success r) j).results.failed = j.results.failed)
    ∧ (∀ (r : FailRecord) (j : Job),
        (addJobResultJ (.failure r) j).progress.failed = j.progress.failed + 1
        ∧ (addJobResultJ (.failure r) j).results.failed = j.results.failed ++ [r]
        ∧ (addJobResultJ (.failure r) j).progress.completed = j.progress.completed
        ∧ (addJobResultJ (.failure r) j).results.successful = j.results.successful) := by
  refine ⟨?_, ?_, ?_⟩
  · have hbase : countsInv (createJobJob jobId now jd) := by
      constructor <;> simp [createJobJob, addLogJ]
    have hfold : ∀ (l : List ProcOp) (j : Job), countsInv j →
        countsInv (List.foldl applyProcOp j l) := by
      intro l
      induction l with
      | nil => intro j h; exact h
      | cons op rest ih =>
          intro j h
          exact ih _ (countsInv_applyProcOp j op h)
    exact hfold ops _ hbase
  · intro r j
    have ha := addJobResultJ_success r j
    exact ⟨ha.1, ha.2.2.2.1, ha.2.1, ha.2.2.2.2.1⟩
  · intro r j
    have ha := addJobResultJ_failure r j
    exact ⟨ha.1, ha.2.2.2.1, ha.2.1, ha.2.2.2.2.1⟩

def c7Data : JobData :=
  { type := some "google_drive_download", files := none,
    googleDriveFiles := some [⟨"g7", "c.txt", "text/plain", 1, "u"⟩],
    description := some "", category := some "googledrive", uploadedBy := some "u@x" }

def c7Map0 : JobMap := createJob [] "j7" 0 c7Data

def c7Map1 : JobMap := updateJobStatus c7Map0 "j7" 5 JobStatus.completed none

def c7Map2 : JobMap := updateJobStatus c7Map1 "j7" 6 JobStatus.processing none

/-- C7 counterexample.  A job sits in the terminal status `completed`, yet
the JobQueue operation `updateJobStatus` moves it straight back to
`processing`: terminal states are not absorbing under JobQueue
operations. -/
theorem c7_terminal_absorbing_counterexample :
    (getJob c7Map1 "j7").map Job.status = some JobStatus.completed
    ∧ (getJob c7Map1 "j7").map (fun j => j.status.isTerminal) = some true
    ∧ (getJob c7Map2 "j7").map Job.status = some JobStatus.processing
    ∧ JobStatus.processing ≠ JobStatus.completed := by
  decide

/-- C7 (amended).  `JobQueue.updateJobStatus` enforces no absorption: it
overwrites the status of any job, terminal or not, with the requested
status.  Terminal states are absorbing only with respect to the processor:
`processJob` on a job whose status is terminal returns the not-pending
error and leaves the queue unchanged. -/
theorem c7_terminal_absorbing_amended :
    (∀ (now : Nat) (st : JobStatus) (err : Option String) (j : Job),
        (updateJobStatusJ now st err j).status = st)
    ∧ (∀ (now : Nat) (fate : Nat → FileFate) (hasSession : Bool)
        (currentJobs : List String) (jobId : String) (m : JobMap) (job : Job),
        jobId ∉ currentJobs → getJob m jobId = some job →
        job.status.isTerminal = true →
        processJob now fate hasSession currentJobs jobId m
          = (m, some ("Job is not pending (status: "
              ++ statusToString job.status ++ ")"))) := by
  constructor
  · intro now st err j
    exact updateJobStatusJ_status now st err j
  · intro now fate hasSession currentJobs jobId m job hmem hget hterm
    have hne : job.status ≠ JobStatus.pending := by
      intro he
      rw [he] at hterm
      simp [JobStatus.isTerminal] at hterm
    simp only [processJob, hget]
    rw [if_neg hmem, if_pos hne]

def c7WData : JobData :=
  { type := some "google_drive_download", files := none,
    googleDriveFiles := some [⟨"g7w", "d.txt", "text/plain", 1, "u"⟩],
    description := some "", category := some "googledrive", uploadedBy := some "u@x" }

def c7WJob : Job := updateJobStatusJ 5 JobStatus.completed none (createJobJob "j7w" 0 c7WData)

def c7WMap : JobMap := [("j7w", c7WJob)]

theorem c7_terminal_absorbing_witness :
    (updateJobStatusJ 6 JobStatus.processing none c7WJob).status = JobStatus.processing
    ∧ processJob 7 (fun _ => FileFate.ok "d" "g") true [] "j7w" c7WMap
      = (c7WMap, some ("Job is not pending (status: "
          ++ statusToString c7WJob.status ++ ")")) :=
  ⟨c7_terminal_absorbing_amended.1 6 JobStatus.processing none c7WJob,
   c7_terminal_absorbing_amended.2 7 (fun _ => FileFate.ok "d" "g") true [] "j7w" c7WMap
     c7WJob (by decide) (by decide) (by decide)⟩

def c8File : FileMeta := ⟨"g8", "doc.pdf", "application/pdf", 5, "u8"⟩

def c8Data : JobData :=
  { type := some "google_drive_download", files := none,
    googleDriveFiles := some [c8File],
    description := some "", category := some "googledrive", uploadedBy := some "u@x" }

def c8Map : JobMap := createJob [] "j8" 0 c8Data

/-- C8 counterexample.  A file whose token acquisition throws
`Token refresh failed: invalid_grant` is recorded in `results.failed` with
the fixed substituted message, not with the message of the error that
caused the failure: the original message is not preserved verbatim. -/
theorem c8_verbatim_error_counterexample :
    (getJob (processSingleFile "j8" c8File 0
          (FileFate.tokenFail "Token refresh failed: invalid_grant") 1 c8Map) "j8").map
        (fun j => j.results.failed.map FailRecord.error)
      = some [authFailedMessage]
    ∧ authFailedMessage ≠ "Token refresh failed: invalid_grant" := by
  decide

/-- C8 (amended).  Every per-file failure appends exactly one entry to
`results.failed` naming that file (its name and Google Drive id) and
carrying the message of the error reaching the catch block verbatim; for
download/upload/save failures that is the original message, but
token-acquisition failures are first replaced by the fixed message
`Authentication failed. Please log in again.`, so for those the causing
error message is not preserved.  Successful files leave `results.failed`
untouched and append exactly one record to `results.successful`. -/
theorem c8_failed_entry_messages (now : Nat) (m : JobMap) (jobId : String)
    (f : FileMeta) (index : Nat) (j : Job) (msg : String)
    (h : getJob m jobId = some j) :
    ((getJob (processSingleFile jobId f index (FileFate.stepFail msg) now m) jobId).map
        (fun j' => j'.results.failed)
      = some (j.results.failed ++ [⟨f.name, f.id, msg⟩]))
    ∧ ((getJob (processSingleFile jobId f index (FileFate.stepFail msg) now m) jobId).map
        (fun j' => j'.results.successful)
      = some j.results.successful)
    ∧ ((getJob (processSingleFile jobId f index (FileFate.tokenFail msg) now m) jobId).map
        (fun j' => j'.results.failed)
      = some (j.results.failed ++ [⟨f.name, f.id, authFailedMessage⟩]))
    ∧ ((getJob (processSingleFile jobId f index (FileFate.tokenFail msg) now m) jobId).map
        (fun j' => j'.results.successful)
      = some j.results.successful)
    ∧ (∀ dbId gridfsId,
        ((getJob (processSingleFile jobId f index (FileFate.ok dbId gridfsId) now m)
              jobId).map (fun j' => j'.results.failed)
          = some j.results.failed)
        ∧ ((getJob (processSingleFile jobId f index (FileFate.ok dbId gridfsId) now m)
              jobId).map (fun j' => j'.results.successful)
          = some (j.results.successful
              ++ [⟨dbId, f.name, f.size, gridfsId, f.id⟩]))) := by
  refine ⟨?_, ?_, ?_, ?_, ?_⟩
  · rw [getJob_processSingleFile jobId f index (FileFate.stepFail msg) now m j h]
    simp [singleFileEffect, updateJobProgressJ_results, addJobResultJ]
  · rw [getJob_processSingleFile jobId f index (FileFate.stepFail msg) now m j h]
    simp [singleFileEffect, updateJobProgressJ_results, addJobResultJ]
  · rw [getJob_processSingleFile jobId f index (FileFate.tokenFail msg) now m j h]
    simp [singleFileEffect, updateJobProgressJ_results, addJobResultJ]
  · rw [getJob_processSingleFile jobId f index (FileFate.tokenFail msg) now m j h]
    simp [singleFileEffect, updateJobProgressJ_results, addJobResultJ]
  · intro dbId gridfsId
    constructor
    · rw [getJob_processSingleFile jobId f index (FileFate.ok dbId gridfsId) now m j h]
      simp [singleFileEffect, updateJobProgressJ_results, addJobResultJ]
    · rw [getJob_processSingleFile jobId f index (FileFate.ok dbId gridfsId) now m j h]
      simp [singleFileEffect, updateJobProgressJ_results, addJobResultJ]

def c8WJob : Job := createJobJob "j8w" 0 c8Data

def c8WMap : JobMap := [("j8w", c8WJob)]

theorem c8_failed_entry_messages_witness :
    ((getJob (processSingleFile "j8w" c8File 0 (FileFate.stepFail "read ECONNRESET") 1
          c8WMap) "j8w").map (fun j' => j'.results.failed)
      = some (c8WJob.results.failed ++ [⟨c8File.name, c8File.id, "read ECONNRESET"⟩]))
    ∧ ((getJob (processSingleFile "j8w" c8File 0 (FileFate.tokenFail "read ECONNRESET") 1
          c8WMap) "j8w").map (fun j' => j'.results.failed)
      = some (c8WJob.results.failed ++ [⟨c8File.name, c8File.id, authFailedMessage⟩]))
    ∧ ((getJob (processSingleFile "j8w" c8File 0 (FileFate.ok "db8" "gf8") 1
          c8WMap) "j8w").map (fun j' => j'.results.successful)
      = some (c8WJob.results.successful
          ++ [⟨"db8", c8File.name, c8File.size, "gf8", c8File.id⟩])) :=
  ⟨(c8_failed_entry_messages 1 c8WMap "j8w" c8File 0 c8WJob "read ECONNRESET"
      (by decide)).1,
   (c8_failed_entry_messages 1 c8WMap "j8w" c8File 0 c8WJob "read ECONNRESET"
      (by decide)).2.2.1,
   ((c8_failed_entry_messages 1 c8WMap "j8w" c8File 0 c8WJob "read ECONNRESET"
      (by decide)).2.2.2.2 "db8" "gf8").2⟩

/-- C3.  A pending job with a session and a nonempty file list that runs
through all batches ends in `completed` exactly when its final
`progress.failed` is zero and in `completed_with_errors` exactly when it is
positive; such a job never ends in `failed` (partial failures do not
produce `failed`). -/
theorem c3_terminal_status_partition (now : Nat) (fate : Nat → FileFate)
    (cj : List String) (jobId : String) (m : JobMap) (job : Job) (files : List FileMeta)
    (hmem : jobId ∉ cj) (hget : getJob m jobId = some job)
    (hpend : job.status = JobStatus.pending)
    (hfiles : googleDriveFilesOf job = some files) (hne : files ≠ []) :
    (processJob now fate true cj jobId m).2 = none
    ∧ (((getJob (processJob now fate true cj jobId m).1 jobId).map
          (fun j' => (j'.status, decide (j'.progress.failed = 0)))
        = some (JobStatus.completed, true))
      ∨ ((getJob (processJob now fate true cj jobId m).1 jobId).map
          (fun j' => (j'.status, decide (j'.progress.failed = 0)))
        = some (JobStatus.completed_with_errors, false))) := by
  have hnpend : ¬ job.status ≠ JobStatus.pending := by simp [hpend]
  have hie : files.isEmpty = false := by
    cases files with
    | nil => exact absurd rfl hne
    | cons a as => rfl
  have hm1 : getJob (updateJobStatus m jobId now JobStatus.processing none) jobId
      = some (updateJobStatusJ now JobStatus.processing none job) := by
    unfold updateJobStatus
    rw [getJob_withJob, hget]
    rfl
  obtain ⟨fj, hfj⟩ := getJob_processBatchesAux jobId 5 fate now files.length files 0
    (updateJobStatus m jobId now JobStatus.processing none)
    (updateJobStatusJ now JobStatus.processing none job) hm1
  have hfj' : getJob (processFilesBatch jobId files 5 fate now
      (updateJobStatus m jobId now JobStatus.processing none)).1 jobId = some fj := hfj
  simp only [processJob, hget, hfiles, hie, Bool.not_true, Bool.false_eq_true, if_false]
  rw [if_neg hmem, if_neg hnpend]
  simp only [hfj']
  by_cases hf : fj.progress.failed > 0
  · rw [if_pos hf]
    refine ⟨rfl, Or.inr ?_⟩
    unfold updateJobStatus at hfj' ⊢
    rw [getJob_withJob, hfj']
    have hdk : decide (fj.progress.failed = 0) = false := by
      simp only [decide_eq_false_iff_not]
      omega
    simp [updateJobStatusJ_status, updateJobStatusJ_progress, hdk]
  · rw [if_neg hf]
    refine ⟨rfl, Or.inl ?_⟩
    unfold updateJobStatus at hfj' ⊢
    rw [getJob_withJob, hfj']
    have hz : fj.progress.failed = 0 := by omega
    simp [updateJobStatusJ_status, updateJobStatusJ_progress, hz]

def c3File1 : FileMeta := ⟨"g31", "one.txt", "text/plain", 1, "u"⟩

def c3File2 : FileMeta := ⟨"g32", "two.txt", "text/plain", 2, "u"⟩

def c3Data : JobData :=
  { type := some "google_drive_download", files := none,
    googleDriveFiles := some [c3File1, c3File2],
    description := some "", category := some "googledrive", uploadedBy := some "u@x" }

def c3Job : Job := createJobJob "j3" 0 c3Data

def c3Map : JobMap := [("j3", c3Job)]

def c3FateOk : Nat → FileFate := fun _ => FileFate.ok "db" "gf"

def c3FateMixed : Nat → FileFate :=
  fun i => if i = 1 then FileFate.stepFail "network error" else FileFate.ok "db" "gf"

theorem c3_terminal_status_partition_witness :
    ((processJob 1 c3FateOk true [] "j3" c3Map).2 = none
      ∧ (((getJob (processJob 1 c3FateOk true [] "j3" c3Map).1 "j3").map
            (fun j' => (j'.status, decide (j'.progress.failed = 0)))
          = some (JobStatus.completed, true))
        ∨ ((getJob (processJob 1 c3FateOk true [] "j3" c3Map).1 "j3").map
            (fun j' => (j'.status, decide (j'.progress.failed = 0)))
          = some (JobStatus.completed_with_errors, false))))
    ∧ ((processJob 1 c3FateMixed true [] "j3" c3Map).2 = none
      ∧ (((getJob (processJob 1 c3FateMixed true [] "j3" c3Map).1 "j3").map
            (fun j' => (j'.status, decide (j'.progress.failed = 0)))
          = some (JobStatus.completed, true))
        ∨ ((getJob (processJob 1 c3FateMixed true [] "j3" c3Map).1 "j3").map
            (fun j' => (j'.status, decide (j'.progress.failed = 0)))
          = some (JobStatus.completed_with_errors, false)))) :=
  ⟨c3_terminal_status_partition 1 c3FateOk [] "j3" c3Map c3Job [c3File1, c3File2]
     (by decide) (by decide) (by decide) (by decide) (by decide),
   c3_terminal_status_partition 1 c3FateMixed [] "j3" c3Map c3Job [c3File1, c3File2]
     (by decide) (by decide) (by decide) (by decide) (by decide)⟩

def c6File (i : Nat) : FileMeta :=
  ⟨"id" ++ toString i, "file" ++ toString i, "text/plain", i, "url" ++ toString i⟩

def c6Files : List FileMeta :=
  [c6File 1, c6File 2, c6File 3, c6File 4, c6File 5, c6File 6, c6File 7]

/-- C6.  With batch size 5 the processor schedule is exactly the file list
cut into `ceil(length / 5)` consecutive slices in order (their
concatenation is the original list), each batch settling before the next
starts, with the fixed delay occurring exactly between consecutive batches
and never after the last one; a 7-file job yields two batches of 5 and 2
files with the delay observed exactly once. -/
theorem c6_batch_schedule (jobId : String) (fate : Nat → FileFate) (now : Nat)
    (m : JobMap) (files : List FileMeta) :
    (processFilesBatch jobId files 5 fate now m).2 = interleaveDelays (chunksOf 5 files)
    ∧ (chunksOf 5 files).length = (files.length + 4) / 5
    ∧ (chunksOf 5 files).flatten = files
    ∧ ((processFilesBatch jobId files 5 fate now m).2).count BatchEvent.delay
        = (chunksOf 5 files).length - 1
    ∧ (processFilesBatch "job_6" c6Files 5
          (fun i => FileFate.ok ("d" ++ toString i) ("g" ++ toString i)) 0 []).2
        = [BatchEvent.batch (c6Files.take 5), BatchEvent.delay,
           BatchEvent.batch (c6Files.drop 5)]
    ∧ ((c6Files.take 5).length = 5 ∧ (c6Files.drop 5).length = 2
        ∧ ((processFilesBatch "job_6" c6Files 5
              (fun i => FileFate.ok ("d" ++ toString i) ("g" ++ toString i)) 0 []).2).count
            BatchEvent.delay = 1) := by
  have h5 : (4 : Nat) + 1 = 5 := rfl
  have htrace := processBatchesAux_trace jobId 4 fate now files.length files 0 m (le_refl _)
  rw [h5] at htrace
  have htrace' : (processFilesBatch jobId files 5 fate now m).2
      = interleaveDelays (chunksOf 5 files) := htrace
  refine ⟨htrace', ?_, ?_, ?_, by decide, by decide⟩
  · have hlen := chunksOfAux_length 4 files.length files (le_refl _)
    rw [h5] at hlen
    exact hlen
  · have hfl := chunksOfAux_flatten 4 files.length files (le_refl _)
    rw [h5] at hfl
    exact hfl
  · rw [htrace', interleaveDelays_count]

def c1File : FileMeta := ⟨"gd1", "report.pdf", "application/pdf", 10, "u1"⟩

def c1Session : SessionState := ⟨true, true, "user@example.com"⟩

def c1Body : UploadBody := ⟨some [c1File], none, none, none⟩

def c1Map : JobMap := (uploadGoogleDriveRoute "job_1" 0 c1Session c1Body []).2

def c1Final : JobMap :=
  (processJob 1 (fun _ => FileFate.ok "db1" "gf1") true [] "job_1" c1Map).1

/-- C1 (code bug evaluation).  A job created through the upload route with
one file that transfers successfully ends terminal (`completed`) with
`progress.completed + progress.failed = 1` but `progress.total = 0`: the
route stores the file list under `googleDriveFiles` while `createJob`
counts `jobData.files`, so the terminal-count identity of the claim fails
on every job the route creates. -/
theorem c1_terminal_counts_code_eval :
    (getJob c1Final "job_1").map
        (fun j => (j.status, j.progress.completed + j.progress.failed, j.progress.total))
      = some (JobStatus.completed, 1, 0)
    ∧ (1 : Nat) ≠ 0 := by
  decide

def c4File : FileMeta := ⟨"gd4", "notes.txt", "text/plain", 3, "u4"⟩

def c4Session : SessionState := ⟨true, true, "user@example.com"⟩

def c4EmptyBody : UploadBody := ⟨some [], none, none, none⟩

def c4Body : UploadBody := ⟨some [c4File], none, none, none⟩

/-- C4 (code bug evaluation).  An empty `googleDriveFiles` list is rejected
with 400 `No Google Drive files provided` and no job is allocated (first
half of the claim holds); but a nonempty list allocates a pending job whose
`progress.total` is 0 instead of the number of source files, because the
route stores the list under `googleDriveFiles` while `createJob` counts
`jobData.files`. -/
theorem c4_create_job_eval :
    uploadGoogleDriveRoute "job_4" 0 c4Session c4EmptyBody []
      = (UploadResponse.badRequest "No Google Drive files provided", [])
    ∧ (getJob (uploadGoogleDriveRoute "job_4" 0 c4Session c4Body []).2 "job_4").map
        (fun j => (j.status, j.progress.total))
      = some (JobStatus.pending, 0)
    ∧ (uploadGoogleDriveRoute "job_4" 0 c4Session c4Body []).1
      = UploadResponse.accepted "job_4" 1
    ∧ (1 : Nat) ≠ 0 := by
  decide
